import Mathlib

/-!
Shallow embedding of the rfqrelayer core: the `core.Blockchain` ledger
(`src/core/blockchain.go`) and the `network.Server` message handlers,
validator loop and sync loop. Hashes, addresses and raw byte strings are
modelled as `Nat`; `big.Int` values as `Int`. Cryptographic verification
is an external collaborator, modelled by a boolean verdict carried on each
transaction; the canonical RLP encoding is modelled by a symbolic byte
string (`DBVal`) that records what was encoded, so that the collaborator's
round-trip contract (decode after encode yields the original) holds while
decode failures on foreign bytes remain representable.
-/

/-- Hashes (`common.Hash`) modelled as natural numbers. -/
abbrev Hash := Nat

/-- Addresses (`common.Address`) modelled as natural numbers. -/
abbrev Address := Nat

/-- Token descriptor (`types.Token` / `types.BaseToken` / `types.QuoteToken`). -/
structure Token where
  address : Address
  symbol : String
  decimals : Nat
deriving DecidableEq, Repr

/-- `types.SignableData`: the signable payload of an RFQ request. -/
structure SignableData where
  requestorId : String
  baseTokenAmount : Int
  baseToken : Token
  quoteToken : Token
  rfqDurationMs : Nat
deriving DecidableEq, Repr

/-- `types.RFQRequest` as persisted by `WriteRFQTxs`: the sender address,
the signable data and the raw signature values V, R, S. -/
structure RFQRequest where
  From : Address
  Data : SignableData
  V : Int
  R : Int
  S : Int
deriving DecidableEq, Repr

/-- The transaction type tags of `types`. `RFQRequestTxType` is 0 (asserted
by the repository's API test); the remaining tags are distinct small values. -/
def RFQRequestTxType : Nat := 0
def OpenRFQTxType : Nat := 1
def ClosedRFQTxType : Nat := 2
def MatchedRFQTxType : Nat := 3
def SettledRFQTxType : Nat := 4
def QuoteTxType : Nat := 5

/-- `types.Transaction`: a typed envelope. `txType` is `tx.Type()`,
`fromAddr` is `*tx.From()`, `rfqData` is `tx.RFQData()`, `dataBytes` is
the raw payload `tx.Data()`, `referenceTxHash` is `tx.ReferenceTxHash()`,
`hash` is `tx.Hash()` (computed over the payload only, so it is a fixed
attribute here), `v`, `r`, `s` are `tx.RawSignatureValues()`, and
`sigValid` is the verdict of the cryptographic collaborator consulted by
`tx.Verify()`. -/
structure Transaction where
  txType : Nat
  fromAddr : Address
  rfqData : SignableData
  dataBytes : Nat
  referenceTxHash : Hash
  hash : Hash
  v : Int
  r : Int
  s : Int
  sigValid : Bool
deriving DecidableEq, Repr

/-- `tx.Verify()`: succeeds exactly when the signature verifies. -/
def Transaction.Verify (tx : Transaction) : Except String Unit :=
  if tx.sigValid then Except.ok () else Except.error "invalid transaction signature"

/-- `types.Header`. Only the fields the verified operations read are kept:
`height` (`big.Int`), and `hhash`, the header's hash (`header.Hash()`),
computed by an external hasher and hence a fixed attribute. -/
structure Header where
  version : Nat
  parentHash : Hash
  height : Int
  timestamp : Nat
  txHash : Hash
  hhash : Hash
deriving DecidableEq, Repr

/-- `types.Block`: a header (a nilable pointer in Go, hence `Option`),
the ordered transaction list, and the validator's public key (a `Nat`). -/
structure Block where
  header : Option Header
  transactions : List Transaction
  validatorKey : Nat
deriving DecidableEq, Repr

/-- `b.Header()`. -/
def Block.Header (b : Block) : Option Header := b.header

/-- `b.Transactions()`. -/
def Block.Transactions (b : Block) : List Transaction := b.transactions

/-- A value stored in a kv-store table. `encRFQ r` is the RLP encoding of
the `RFQRequest` `r` (written by the request branch of `WriteRFQTxs`);
`rawTx d` is a raw transaction payload `tx.Data()` (written by the other
branches). Keeping the encoding symbolic realises the encoding
collaborator's round-trip guarantee without fixing a byte format. -/
inductive DBVal
  | encRFQ (r : RFQRequest)
  | rawTx (d : Nat)
deriving DecidableEq, Repr

/-- `rlp.DecodeBytes` into an `RFQRequest`: succeeds exactly on bytes that
are the encoding of an `RFQRequest`. -/
def decodeRFQRequest : DBVal → Except String RFQRequest
  | DBVal.encRFQ r => Except.ok r
  | DBVal.rawTx _ => Except.error "rlp: expected input list for types.RFQRequest"

/-- A kv table: association list from key to stored value. -/
abbrev KVTable := List (Hash × DBVal)

/-- `table.Put(key, value)`: kv-store put, overwriting any previous value
at the key. -/
def kvPut (t : KVTable) (k : Hash) (v : DBVal) : KVTable :=
  t.filter (fun p => p.1 ≠ k) ++ [(k, v)]

/-- The block store written by `rawdb.WriteBlock` and read by
`rawdb.ReadBlock`: keyed by header hash and block number. -/
abbrev BlockDB := List ((Hash × Nat) × Block)

/-- `rawdb.ReadBlock(db, hash, number)`. -/
def readBlock (db : BlockDB) (h : Hash) (number : Nat) : Option Block :=
  (db.find? (fun p => p.1.1 = h ∧ p.1.2 = number)).map (fun p => p.2)

/-- `rawdb.WriteBlock(db, b)`: stores the block under its header hash and
height. A block with a nil header is never written by the call sites. -/
def writeBlock (db : BlockDB) (b : Block) : BlockDB :=
  match b.header with
  | none => db
  | some h =>
      ((h.hhash, h.height.toNat), b) :: db.filter (fun p => ¬(p.1.1 = h.hhash ∧ p.1.2 = h.height.toNat))

/-- Outcome of a Go function that can return a value, return an error, or
panic at runtime (e.g. an out-of-range slice index). -/
inductive GoResult (α : Type) where
  | ok (a : α)
  | err (msg : String)
  | fault (msg : String)
deriving DecidableEq, Repr

/-- Whether a `GoResult` is a normal (non-error, non-panic) result. -/
def GoResult.isOk {α : Type} : GoResult α → Bool
  | GoResult.ok _ => true
  | _ => false

/-- `core.Blockchain`: the in-memory header chain, the persisted block
store, the six RFQ tables, the pluggable block validator (`nil` for
non-validator chains, modelled as `Option` of a validation function), the
lock-free current-head snapshot, and the genesis block reference. -/
structure Blockchain where
  headers : List Header
  db : BlockDB
  validator : Option (Block → Except String Unit)
  currentBlock : Option Header
  genesisBlock : Option Block
  rfqRequestsTable : KVTable
  openRFQSTable : KVTable
  closedRFQSTable : KVTable
  matchedRFQSTable : KVTable
  settledRFQSTable : KVTable
  quotesTable : KVTable

/-- `bc.Height()`: the header count minus one (−1 before genesis). -/
def Height (bc : Blockchain) : Int := (bc.headers.length : Int) - 1

/-- `bc.Headers()`. -/
def Headers (bc : Blockchain) : List Header := bc.headers

/-- `bc.CurrentBlock()`: the lock-free current-head snapshot. -/
def CurrentBlock (bc : Blockchain) : Option Header := bc.currentBlock

/-- `bc.GetBlockHeader(height)`. The guard rejects only `height` strictly
greater than `len(bc.headers)`; any surviving height outside the index
range `[0, len)` reaches the slice access `bc.headers[height]` and
panics. -/
def GetBlockHeader (bc : Blockchain) (height : Int) : GoResult Header :=
  if height > (bc.headers.length : Int) then
    GoResult.err "blockchain height is less than requested height"
  else if height < 0 then
    GoResult.fault "runtime error: index out of range"
  else
    match bc.headers.get? height.toNat with
    | some h => GoResult.ok h
    | none => GoResult.fault "runtime error: index out of range"

/-- `bc.GetBlock(height)`: rejects heights above `bc.Height()`, then looks
up the header and reads the persisted block from the store. -/
def GetBlock (bc : Blockchain) (height : Int) : GoResult Block :=
  if height > Height bc then
    GoResult.err "blockchain height is less than requested height"
  else
    match GetBlockHeader bc height with
    | GoResult.err e => GoResult.err e
    | GoResult.fault m => GoResult.fault m
    | GoResult.ok blockHeader =>
        match readBlock bc.db blockHeader.hhash height.toNat with
        | none => GoResult.err "block with hash not found"
        | some block => GoResult.ok block

/-- `bc.addBlockWithoutValidation(b)`: appends the header, persists the
block, advances the current-head pointer, and records the genesis block
when this is the first header. Call sites guard against a nil header. -/
def addBlockWithoutValidation (bc : Blockchain) (b : Block) : Blockchain :=
  match b.header with
  | none => bc
  | some h =>
      let headers := bc.headers ++ [h]
      { bc with
        headers := headers
        db := writeBlock bc.db b
        currentBlock := some h
        genesisBlock := if headers.length = 1 then some b else bc.genesisBlock }

/-- The validator dereference in `VerifyBlock`: block-level validation runs
only when `bc.validator != nil`. -/
def runValidator (bc : Blockchain) (b : Block) : Except String Unit :=
  match bc.validator with
  | some v => v b
  | none => Except.ok ()

/-- The transaction loop of `VerifyBlock`: verifies every transaction's
signature, returning the first failure. -/
def verifyTxs : List Transaction → Except String Unit
  | [] => Except.ok ()
  | tx :: rest =>
      match tx.Verify with
      | Except.error e => Except.error e
      | Except.ok () => verifyTxs rest

/-- `bc.VerifyBlock(b)`: rejects a nil block or nil header, runs pluggable
block-level validation, verifies every transaction's signature, and only
then appends the block via `addBlockWithoutValidation`. The result is the
chain after the call together with the returned error: every error path
returns before any mutation, so the chain component is untouched there. -/
def VerifyBlock (bc : Blockchain) (b : Option Block) : Blockchain × Option String :=
  match b with
  | none => (bc, some "malformed block: is nil")
  | some blk =>
      match blk.header with
      | none => (bc, some "malformed block: header is nil")
      | some _ =>
          match runValidator bc blk with
          | Except.error e => (bc, some e)
          | Except.ok () =>
              match verifyTxs blk.transactions with
              | Except.error e => (bc, some e)
              | Except.ok () => (addBlockWithoutValidation bc blk, none)

/-- The empty blockchain assembled by the `NewBlockchain` literal before
the validator branch runs. -/
def emptyBlockchain : Blockchain :=
  { headers := []
    db := []
    validator := none
    currentBlock := none
    genesisBlock := none
    rfqRequestsTable := []
    openRFQSTable := []
    closedRFQSTable := []
    matchedRFQSTable := []
    settledRFQSTable := []
    quotesTable := [] }

/-- `core.NewBlockchain(logger, genesis, db, validator)`. For a validator
node it installs the block validator (`vf` stands for the
`NewBlockValidator` validation function), commits genesis without
validation, reads it back via `GetBlock(0)`, and records it; in all cases
it finally stores `nil` into the current-head pointer. -/
def NewBlockchain (genesis : Block) (isValidator : Bool)
    (vf : Block → Except String Unit) : GoResult Blockchain :=
  if isValidator then
    match GetBlock (addBlockWithoutValidation { emptyBlockchain with validator := some vf } genesis) 0 with
    | GoResult.err e => GoResult.err e
    | GoResult.fault m => GoResult.fault m
    | GoResult.ok g =>
        GoResult.ok { addBlockWithoutValidation { emptyBlockchain with validator := some vf } genesis with
          genesisBlock := some g, currentBlock := none }
  else
    GoResult.ok { emptyBlockchain with currentBlock := none }

/-- `bc.WriteRFQTxs(tx)`: routes the transaction by its type tag. A
`RFQRequestTxType` transaction is RLP-encoded as an `RFQRequest` built
from its sender, signable data and raw signature values, and stored in
the requests table under the transaction's own hash; the five other known
tags store the raw payload under the transaction's `ReferenceTxHash` in
their respective tables; any other tag is an error and nothing is
written. -/
def WriteRFQTxs (bc : Blockchain) (tx : Transaction) : Except String Blockchain :=
  if tx.txType = RFQRequestTxType then
    let rfqRequest : RFQRequest :=
      { From := tx.fromAddr, Data := tx.rfqData, V := tx.v, R := tx.r, S := tx.s }
    Except.ok { bc with
      rfqRequestsTable := kvPut bc.rfqRequestsTable tx.hash (DBVal.encRFQ rfqRequest) }
  else if tx.txType = OpenRFQTxType then
    Except.ok { bc with
      openRFQSTable := kvPut bc.openRFQSTable tx.referenceTxHash (DBVal.rawTx tx.dataBytes) }
  else if tx.txType = ClosedRFQTxType then
    Except.ok { bc with
      closedRFQSTable := kvPut bc.closedRFQSTable tx.referenceTxHash (DBVal.rawTx tx.dataBytes) }
  else if tx.txType = MatchedRFQTxType then
    Except.ok { bc with
      matchedRFQSTable := kvPut bc.matchedRFQSTable tx.referenceTxHash (DBVal.rawTx tx.dataBytes) }
  else if tx.txType = SettledRFQTxType then
    Except.ok { bc with
      settledRFQSTable := kvPut bc.settledRFQSTable tx.referenceTxHash (DBVal.rawTx tx.dataBytes) }
  else if tx.txType = QuoteTxType then
    Except.ok { bc with
      quotesTable := kvPut bc.quotesTable tx.referenceTxHash (DBVal.rawTx tx.dataBytes) }
  else
    Except.error ("unknown transaction type: " ++ toString tx.txType)

/-- The iteration loop of `GetRFQRequests`: decodes each record yielded by
the table iterator, aborting on the first decode failure. -/
def decodeRFQRecords : List (Hash × DBVal) → Except String (List RFQRequest)
  | [] => Except.ok []
  | (_, v) :: rest =>
      match decodeRFQRequest v with
      | Except.error e => Except.error ("error decoding RFQRequest: " ++ e)
      | Except.ok r =>
          match decodeRFQRecords rest with
          | Except.error e => Except.error e
          | Except.ok rs => Except.ok (r :: rs)

/-- `bc.GetRFQRequests()` run against the records an iterator yields and
the iterator's terminal error status (`it.Error()`, reporting a storage
iteration failure). A decode failure aborts mid-iteration before the
terminal status is consulted; an iteration error is surfaced after the
loop; only a fully clean pass returns results. -/
def GetRFQRequestsIter (entries : List (Hash × DBVal)) (iterErr : Option String) :
    Except String (List RFQRequest) :=
  match decodeRFQRecords entries with
  | Except.error e => Except.error e
  | Except.ok rs =>
      match iterErr with
      | some e => Except.error ("error iterating over transactions: " ++ e)
      | none => Except.ok rs

/-- `bc.GetRFQRequests()`: iterates the requests table. The pure table
model yields every stored record and never with a storage-iteration
fault. -/
def GetRFQRequests (bc : Blockchain) : Except String (List RFQRequest) :=
  GetRFQRequestsIter bc.rfqRequestsTable none

/-! ## Network layer (`network.Server`) -/

/-- `network.FullBlock`: the `{header, block}` pair sent in a `Blocks`
reply. The header field is the nilable `block.Header()`. -/
structure FullBlock where
  block : Block
  hdr : Option Header
deriving DecidableEq, Repr

/-- The response loop of `processGetBlocksMessage`:
`for i := int(data.To); i <= int(data.From); i++`, fetching each block via
`GetBlock` and propagating the first failure. `fuel` is the number of
remaining iterations, `dataFrom + 1 - dataTo` at the top. -/
def collectRange (bc : Blockchain) (i : Nat) : Nat → GoResult (List FullBlock)
  | 0 => GoResult.ok []
  | fuel + 1 =>
      match GetBlock bc (Int.ofNat i) with
      | GoResult.err e => GoResult.err e
      | GoResult.fault m => GoResult.fault m
      | GoResult.ok block =>
          match collectRange bc (i + 1) fuel with
          | GoResult.err e => GoResult.err e
          | GoResult.fault m => GoResult.fault m
          | GoResult.ok rest => GoResult.ok ({ block := block, hdr := block.Header } :: rest)

/-- `s.processGetBlocksMessage(from, data)` up to the reply: when both
bounds are at most the local header count, walks heights `data.To` up to
`data.From` inclusive collecting `{header, block}` pairs — any `GetBlock`
failure is returned and no reply is sent; otherwise the loop is skipped.
A normal result is the batch the node sends back to the requesting peer
(possibly empty). -/
def processGetBlocksMessage (bc : Blockchain) (dataFrom dataTo : Nat) :
    GoResult (List FullBlock) :=
  let ourHeadersLength := bc.headers.length
  if dataFrom ≤ ourHeadersLength ∧ dataTo ≤ ourHeadersLength then
    collectRange bc dataTo (dataFrom + 1 - dataTo)
  else
    GoResult.ok []

/-- Modelled from the spec: the `TxPool` mempool type is not under `src/`
(only its callers are). Per the spec it is an in-memory pending set keyed
by transaction hash, insertion-ordered for `Pending()`. -/
structure TxPool where
  txs : List Transaction
deriving DecidableEq, Repr

/-- Modelled from the spec: `pool.Contains(hash)` — membership by
transaction hash. -/
def TxPool.Contains (p : TxPool) (h : Hash) : Bool :=
  p.txs.any (fun t => t.hash = h)

/-- Modelled from the spec: `pool.Add(tx)` — inserts unless the hash is
already present (idempotent by hash). -/
def TxPool.Add (p : TxPool) (tx : Transaction) : TxPool :=
  if p.Contains tx.hash then p else { txs := p.txs ++ [tx] }

/-- Modelled from the spec: `pool.Pending()` — snapshot in insertion
order, removing nothing. -/
def TxPool.Pending (p : TxPool) : List Transaction := p.txs

/-- Modelled from the spec: `pool.ClearPending()` — empties the set. -/
def TxPool.ClearPending (_ : TxPool) : TxPool := { txs := [] }

/-- `s.processTransaction(tx)`: if the hash is already in the mempool it
returns success at once; otherwise it broadcasts the transaction to all
peers and adds it to the mempool. (The signature-verification call at this
point is commented out in the source.) Result: the updated pool, whether a
broadcast was issued, and the returned error (always absent). -/
def processTransaction (pool : TxPool) (tx : Transaction) :
    TxPool × Bool × Option String :=
  if pool.Contains tx.hash then
    (pool, false, none)
  else
    (pool.Add tx, true, none)

/-- `s.processStatusMessage(from, data)` reduced to its decision: returns
`true` exactly when the handler starts `requestBlocksLoop` in the
background. `myHeadersLength` is the local header count, `currentLength`
the advertised one. -/
def processStatusMessage (isValidator : Bool) (myHeadersLength currentLength : Int) : Bool :=
  if currentLength < myHeadersLength then false
  else if isValidator = false ∧ myHeadersLength < currentLength then true
  else false

/-- `s.requestBlocksLoop(peer, blocksIndex)` as a function of the header
counts the loop observes, one per iteration (each tick re-reads
`len(s.chain.Headers())`). It returns the `GetBlocksMessage{From, To}`
pairs sent: at each iteration, a count at or above the target terminates
the loop; otherwise `{From: target, To: count}` is sent and the loop
continues after its fixed-interval tick. -/
def requestBlocksRun (target : Int) : List Int → List (Int × Int)
  | [] => []
  | len :: rest =>
      if len ≥ target then []
      else (target, len) :: requestBlocksRun target rest

/-- Modelled from the spec: `chain.GetHeader(height)` (called by
`CreateNewBlock` with the current height) is not under `src/`; per the
spec it reads the current head header, failing when no header exists at
that height. -/
def GetHeader (bc : Blockchain) (height : Int) : Except String Header :=
  if h : 0 ≤ height ∧ height.toNat < bc.headers.length then
    Except.ok (bc.headers.get ⟨height.toNat, h.2⟩)
  else
    Except.error "header not found"

/-- `s.CreateNewBlock()`: reads the current header at `chain.Height()`,
snapshots the mempool `Pending()`, builds a block from the previous header
(`types.NewBlockFromPrevHeader`, passed in as `newBlockFromPrevHeader`
since block construction lives outside `src/`), signs it (`block.Sign`,
passed in as `sign`), and submits it to `VerifyBlock`; only on success is
the mempool cleared and the block broadcast. Result: the chain, the pool,
whether a broadcast was issued, and the returned error. -/
def CreateNewBlock (chain : Blockchain) (pool : TxPool)
    (newBlockFromPrevHeader : Header → List Transaction → Except String Block)
    (sign : Block → Except String Block) :
    Blockchain × TxPool × Bool × Option String :=
  match GetHeader chain (Height chain) with
  | Except.error e => (chain, pool, false, some e)
  | Except.ok currentHeader =>
      let txx := pool.Pending
      match newBlockFromPrevHeader currentHeader txx with
      | Except.error e => (chain, pool, false, some e)
      | Except.ok block =>
          match sign block with
          | Except.error e => (chain, pool, false, some e)
          | Except.ok signed =>
              match VerifyBlock chain (some signed) with
              | (chain2, some e) => (chain2, pool, false, some e)
              | (chain2, none) => (chain2, pool.ClearPending, true, none)

/-! ## Concrete fixtures -/

/-- A base-token descriptor. -/
def tokMKR : Token := { address := 10, symbol := "MKR", decimals := 18 }

/-- A quote-token descriptor. -/
def tokUSDC : Token := { address := 11, symbol := "USDC", decimals := 6 }

/-- Signable data with requestor id "119" and amount 10^18. -/
def sd0 : SignableData :=
  { requestorId := "119", baseTokenAmount := 1000000000000000000
    baseToken := tokMKR, quoteToken := tokUSDC, rfqDurationMs := 90000 }

/-- A signed RFQ-request transaction. -/
def tx0 : Transaction :=
  { txType := RFQRequestTxType, fromAddr := 7, rfqData := sd0, dataBytes := 42
    referenceTxHash := 99, hash := 5, v := 1, r := 2, s := 3, sigValid := true }

/-- A genesis-style header of height 0. -/
def h0 : Header :=
  { version := 1, parentHash := 0, height := 0, timestamp := 0, txHash := 0, hhash := 100 }

/-- A height-1 header. -/
def h1 : Header :=
  { version := 1, parentHash := 100, height := 1, timestamp := 5, txHash := 0, hhash := 101 }

/-- A block carrying `tx0` under header `h0`. -/
def blk0 : Block := { header := some h0, transactions := [tx0], validatorKey := 1 }

/-- An empty block under header `h1`. -/
def blk1 : Block := { header := some h1, transactions := [], validatorKey := 1 }

/-- A chain holding exactly one header and no persisted blocks. -/
def oneHeaderChain : Blockchain := { emptyBlockchain with headers := [h0] }

/-- The chain obtained by committing `blk0` to the empty chain. -/
def commitBC : Blockchain := addBlockWithoutValidation emptyBlockchain blk0

/-- An empty mempool. -/
def emptyPool : TxPool := { txs := [] }

/-- A transaction whose signature does not verify. -/
def txBad : Transaction := { tx0 with hash := 6, sigValid := false }

/-- A block containing the badly signed `txBad`. -/
def blkBad : Block := { header := some h0, transactions := [txBad], validatorKey := 1 }

/-- An OpenRFQ-type transaction referring back to `tx0`. -/
def txOpen : Transaction := { tx0 with txType := OpenRFQTxType, hash := 8, referenceTxHash := 5 }

/-- A transaction with an unrecognised type tag. -/
def txUnknown : Transaction := { tx0 with txType := 9 }

/-- The chain after `tx0` has been written as an RFQ request. -/
def wroteBC : Blockchain :=
  { emptyBlockchain with rfqRequestsTable :=
      (kvPut emptyBlockchain.rfqRequestsTable tx0.hash
        (DBVal.encRFQ { From := tx0.fromAddr, Data := tx0.rfqData, V := tx0.v, R := tx0.r, S := tx0.s })) }

/-- An always-succeeding block validator. -/
def vfOk : Block → Except String Unit := fun _ => Except.ok ()

/-- The chain `NewBlockchain` produces for a validator node seeded with
`blk0` as genesis. -/
def genBC : Blockchain :=
  { addBlockWithoutValidation { emptyBlockchain with validator := some vfOk } blk0 with
    genesisBlock := some blk0, currentBlock := none }

/-- The batch of `{header, block}` pairs the amended GetBlocks claim
predicts: one pair per height, `fuel` heights starting at `i`, the block
at height `j` being `f j`. -/
def expectedBatch (f : Nat → Block) (i : Nat) : Nat → List FullBlock
  | 0 => []
  | fuel + 1 => { block := f i, hdr := (f i).Header } :: expectedBatch f (i + 1) fuel

/-! ## Helper lemmas -/

/-- A block written by `writeBlock` is read back by `readBlock` at its
header hash and height. -/
theorem readBlock_writeBlock (db : BlockDB) (b : Block) (h : Header)
    (hh : b.header = some h) :
    readBlock (writeBlock db b) h.hhash h.height.toNat = some b := by
  simp [writeBlock, readBlock, hh, List.find?]

/-- `verifyTxs` fails whenever some transaction's signature is invalid. -/
theorem verifyTxs_error_of_mem (txs : List Transaction) (tx : Transaction)
    (hmem : tx ∈ txs) (hbad : tx.sigValid = false) :
    ∃ e, verifyTxs txs = Except.error e := by
  induction txs with
  | nil => cases hmem
  | cons hd tl ih =>
      cases hmem with
      | head =>
          refine ⟨"invalid transaction signature", ?_⟩
          simp [verifyTxs, Transaction.Verify, hbad]
      | tail _ hmem' =>
          by_cases hv : hd.sigValid
          · obtain ⟨e, he⟩ := ih hmem'
            exact ⟨e, by simp [verifyTxs, Transaction.Verify, hv, he]⟩
          · exact ⟨"invalid transaction signature",
              by simp [verifyTxs, Transaction.Verify, hv]⟩

/-- Every error path of `VerifyBlock` leaves the chain untouched. -/
theorem verifyBlock_error_unchanged (bc : Blockchain) (b : Option Block)
    (he : (VerifyBlock bc b).2.isSome = true) : (VerifyBlock bc b).1 = bc := by
  cases b with
  | none => rfl
  | some blk =>
      cases hh : blk.header with
      | none => simp [VerifyBlock, hh]
      | some h =>
          cases hv : runValidator bc blk with
          | error e => simp [VerifyBlock, hh, hv]
          | ok u =>
              cases u
              cases ht : verifyTxs blk.transactions with
              | error e => simp [VerifyBlock, hh, hv, ht]
              | ok u' =>
                  cases u'
                  simp [VerifyBlock, hh, hv, ht] at he

/-- When `VerifyBlock` returns no error, its result is the committed
chain. -/
theorem verifyBlock_ok_shape (bc : Blockchain) (blk : Block) (h : Header)
    (hh : blk.header = some h) (hok : (VerifyBlock bc (some blk)).2 = none) :
    (VerifyBlock bc (some blk)).1 = addBlockWithoutValidation bc blk := by
  cases hv : runValidator bc blk with
  | error e => simp [VerifyBlock, hh, hv] at hok
  | ok u =>
      cases u
      cases ht : verifyTxs blk.transactions with
      | error e => simp [VerifyBlock, hh, hv, ht] at hok
      | ok u' =>
          cases u'
          simp [VerifyBlock, hh, hv, ht]

/-- A block containing an invalidly signed transaction is never committed:
`VerifyBlock` reports an error on it. -/
theorem verifyBlock_badTx_error (bc : Blockchain) (blk : Block) (tx : Transaction)
    (hmem : tx ∈ blk.transactions) (hbad : tx.sigValid = false) :
    (VerifyBlock bc (some blk)).2.isSome = true := by
  obtain ⟨e, he⟩ := verifyTxs_error_of_mem blk.transactions tx hmem hbad
  cases hh : blk.header with
  | none => simp [VerifyBlock, hh]
  | some h =>
      cases hv : runValidator bc blk with
      | error e' => simp [VerifyBlock, hh, hv]
      | ok u =>
          cases u
          simp [VerifyBlock, hh, hv, he]

/-- `expectedBatch` has one entry per height. -/
theorem expectedBatch_length (f : Nat → Block) :
    ∀ fuel i, (expectedBatch f i fuel).length = fuel := by
  intro fuel
  induction fuel with
  | zero => intro i; rfl
  | succ n ih => intro i; simp [expectedBatch, ih]

/-- `collectRange` returns the full batch when every `GetBlock` in the
walked window succeeds. -/
theorem collectRange_ok (bc : Blockchain) (f : Nat → Block) :
    ∀ fuel i, (∀ j, i ≤ j → j < i + fuel → GetBlock bc (Int.ofNat j) = GoResult.ok (f j)) →
      collectRange bc i fuel = GoResult.ok (expectedBatch f i fuel) := by
  intro fuel
  induction fuel with
  | zero => intro i _; rfl
  | succ n ih =>
      intro i hall
      have hi : GetBlock bc (Int.ofNat i) = GoResult.ok (f i) :=
        hall i (Nat.le_refl i) (by omega)
      have hrest : collectRange bc (i + 1) n = GoResult.ok (expectedBatch f (i + 1) n) :=
        ih (i + 1) (fun j hj1 hj2 => hall j (by omega) (by omega))
      have hi' : GetBlock bc ((i : ℕ) : ℤ) = GoResult.ok (f i) := hi
      simp [collectRange, hrest, expectedBatch, hi']

/-- `collectRange` never returns a batch when some height inside its
window fails to load: the first failure aborts the walk. -/
theorem collectRange_not_ok (bc : Blockchain) :
    ∀ (fuel i j : Nat), i ≤ j → j < i + fuel →
      (GetBlock bc (Int.ofNat j)).isOk = false →
      ∀ pairs, collectRange bc i fuel ≠ GoResult.ok pairs := by
  intro fuel
  induction fuel with
  | zero =>
      intro i j h1 h2
      exact (by omega : False).elim
  | succ n ih =>
      intro i j h1 h2 hj pairs hcontra
      cases hgb : GetBlock bc (Int.ofNat i) with
      | err e =>
          have hgb' : GetBlock bc ((i : ℕ) : ℤ) = GoResult.err e := hgb
          simp [collectRange, hgb'] at hcontra
      | fault m =>
          have hgb' : GetBlock bc ((i : ℕ) : ℤ) = GoResult.fault m := hgb
          simp [collectRange, hgb'] at hcontra
      | ok b =>
          by_cases hij : j = i
          · subst hij
            rw [hgb] at hj
            simp [GoResult.isOk] at hj
          · have hrec := ih (i + 1) j (by omega) (by omega) hj
            cases hcr : collectRange bc (i + 1) n with
            | err e =>
                have hgb' : GetBlock bc ((i : ℕ) : ℤ) = GoResult.ok b := hgb
                simp [collectRange, hgb', hcr] at hcontra
            | fault m =>
                have hgb' : GetBlock bc ((i : ℕ) : ℤ) = GoResult.ok b := hgb
                simp [collectRange, hgb', hcr] at hcontra
            | ok rest => exact hrec rest hcr

/-- A list of table records containing one undecodable (raw-payload)
record always fails to decode. -/
theorem decodeRFQRecords_rawTx_error :
    ∀ (pre : List (Hash × DBVal)) (k : Hash) (d : Nat) (rest : List (Hash × DBVal)),
      ∃ e, decodeRFQRecords (pre ++ (k, DBVal.rawTx d) :: rest) = Except.error e := by
  intro pre
  induction pre with
  | nil =>
      intro k d rest
      exact ⟨"error decoding RFQRequest: rlp: expected input list for types.RFQRequest",
        by simp [decodeRFQRecords, decodeRFQRequest]⟩
  | cons hd tl ih =>
      intro k d rest
      obtain ⟨kv, v⟩ := hd
      cases v with
      | encRFQ r =>
          obtain ⟨e, he⟩ := ih k d rest
          exact ⟨e, by simp [decodeRFQRecords, decodeRFQRequest, he]⟩
      | rawTx d' =>
          exact ⟨"error decoding RFQRequest: rlp: expected input list for types.RFQRequest",
            by simp [decodeRFQRecords, decodeRFQRequest]⟩

/-- A list with no transaction of the given hash filters to nothing on
that hash. -/
theorem filter_hash_eq_nil (l : List Transaction) (hsh : Hash)
    (h : l.any (fun t => t.hash = hsh) = false) :
    l.filter (fun t => t.hash = hsh) = [] := by
  induction l with
  | nil => rfl
  | cons hd tl ih =>
      simp only [List.any_cons, Bool.or_eq_false_iff] at h
      simp [List.filter_cons, h.1, ih h.2]

/-! ## Claim theorems -/

/-- C1: `VerifyBlock` returns an error when the block is nil, when its
header is nil, when block-level validation fails, or when any
transaction's signature fails to verify; every error result leaves the
chain exactly as it was (no header appended, height unchanged, head not
advanced); a success appends the header, persists the full block, and
advances the current-head pointer. -/
theorem C1_verifyBlock_rejects_or_commits (bc : Blockchain) (b : Option Block) (blk : Block) :
    VerifyBlock bc none = (bc, some "malformed block: is nil")
  ∧ (blk.header = none → VerifyBlock bc (some blk) = (bc, some "malformed block: header is nil"))
  ∧ (∀ v e, blk.header.isSome = true → bc.validator = some v → v blk = Except.error e →
      VerifyBlock bc (some blk) = (bc, some e))
  ∧ (∀ tx, tx ∈ blk.transactions → tx.sigValid = false →
      (VerifyBlock bc (some blk)).2.isSome = true)
  ∧ ((VerifyBlock bc b).2.isSome = true → (VerifyBlock bc b).1 = bc)
  ∧ (∀ h, blk.header = some h → (VerifyBlock bc (some blk)).2 = none →
      (VerifyBlock bc (some blk)).1.headers = bc.headers ++ [h]
      ∧ (VerifyBlock bc (some blk)).1.currentBlock = some h
      ∧ readBlock (VerifyBlock bc (some blk)).1.db h.hhash h.height.toNat = some blk) := by
  refine ⟨rfl, ?_, ?_, ?_, ?_, ?_⟩
  · intro hn
    simp [VerifyBlock, hn]
  · intro v e hsome hv hve
    obtain ⟨h, hh⟩ := Option.isSome_iff_exists.mp hsome
    simp [VerifyBlock, hh, runValidator, hv, hve]
  · intro tx hmem hbad
    exact verifyBlock_badTx_error bc blk tx hmem hbad
  · exact verifyBlock_error_unchanged bc b
  · intro h hh hok
    rw [verifyBlock_ok_shape bc blk h hh hok]
    refine ⟨?_, ?_, ?_⟩
    · simp [addBlockWithoutValidation, hh]
    · simp [addBlockWithoutValidation, hh]
    · simp only [addBlockWithoutValidation, hh]
      exact readBlock_writeBlock bc.db blk h hh

/-- C1 witness: concrete instances of the nil-block rejection, the
block-validation rejection, the bad-signature rejection, and the
successful commit. -/
theorem C1_verifyBlock_witness :
    VerifyBlock oneHeaderChain none = (oneHeaderChain, some "malformed block: is nil")
  ∧ (VerifyBlock emptyBlockchain (some blkBad)).2.isSome = true
  ∧ (VerifyBlock emptyBlockchain (some blk0)).1.headers = emptyBlockchain.headers ++ [h0]
  ∧ (VerifyBlock emptyBlockchain (some blk0)).1.currentBlock = some h0
  ∧ readBlock (VerifyBlock emptyBlockchain (some blk0)).1.db h0.hhash h0.height.toNat = some blk0 := by
  have hcommit :=
    (C1_verifyBlock_rejects_or_commits emptyBlockchain (some blk0) blk0).2.2.2.2.2 h0 rfl rfl
  have hbad :=
    (C1_verifyBlock_rejects_or_commits emptyBlockchain (some blkBad) blkBad).2.2.2.1 txBad
      (by decide) rfl
  exact ⟨(C1_verifyBlock_rejects_or_commits oneHeaderChain none blk0).1,
    hbad, hcommit.1, hcommit.2.1, hcommit.2.2⟩

/-- C2: the claim says `GetBlockHeader(h)` and `GetBlock(h)` fail with a
not-found error for every `h` above the current height, in particular for
`h` equal to the header-list length. The code's guard in `GetBlockHeader`
only rejects `h > len(headers)`, so `h = len(headers)` survives the guard
and the slice access `bc.headers[h]` panics with an index-out-of-range
runtime error instead of returning an error. This theorem evaluates the
embedding at the failing input: a one-header chain asked for height 1.
(`GetBlock` itself, guarding against `bc.Height()`, does return the
error.) -/
theorem C2_getBlockHeader_pastEnd_faults :
    GetBlockHeader oneHeaderChain 1 = GoResult.fault "runtime error: index out of range"
    ∧ GetBlock oneHeaderChain 1 = GoResult.err "blockchain height is less than requested height"
    ∧ Height oneHeaderChain = 0 :=
  ⟨rfl, rfl, rfl⟩

/-- C3: `WriteRFQTxs` routes a `RequestTx` into the requests table keyed by
the transaction's own hash, the five other known types into their tables
keyed by `ReferenceTxHash`, and rejects any other type tag with an
"unknown transaction type" error; each success touches exactly one table
(the record update leaves every other field of the chain unchanged) and
the error case returns before any write. -/
theorem C3_writeRFQTxs_routing (bc : Blockchain) (tx : Transaction) :
    (tx.txType = RFQRequestTxType →
      WriteRFQTxs bc tx = Except.ok { bc with rfqRequestsTable :=
        (kvPut bc.rfqRequestsTable tx.hash
          (DBVal.encRFQ { From := tx.fromAddr, Data := tx.rfqData, V := tx.v, R := tx.r, S := tx.s })) })
  ∧ (tx.txType = OpenRFQTxType →
      WriteRFQTxs bc tx = Except.ok { bc with openRFQSTable :=
        (kvPut bc.openRFQSTable tx.referenceTxHash (DBVal.rawTx tx.dataBytes)) })
  ∧ (tx.txType = ClosedRFQTxType →
      WriteRFQTxs bc tx = Except.ok { bc with closedRFQSTable :=
        (kvPut bc.closedRFQSTable tx.referenceTxHash (DBVal.rawTx tx.dataBytes)) })
  ∧ (tx.txType = MatchedRFQTxType →
      WriteRFQTxs bc tx = Except.ok { bc with matchedRFQSTable :=
        (kvPut bc.matchedRFQSTable tx.referenceTxHash (DBVal.rawTx tx.dataBytes)) })
  ∧ (tx.txType = SettledRFQTxType →
      WriteRFQTxs bc tx = Except.ok { bc with settledRFQSTable :=
        (kvPut bc.settledRFQSTable tx.referenceTxHash (DBVal.rawTx tx.dataBytes)) })
  ∧ (tx.txType = QuoteTxType →
      WriteRFQTxs bc tx = Except.ok { bc with quotesTable :=
        (kvPut bc.quotesTable tx.referenceTxHash (DBVal.rawTx tx.dataBytes)) })
  ∧ (tx.txType ≠ RFQRequestTxType → tx.txType ≠ OpenRFQTxType → tx.txType ≠ ClosedRFQTxType →
      tx.txType ≠ MatchedRFQTxType → tx.txType ≠ SettledRFQTxType → tx.txType ≠ QuoteTxType →
      WriteRFQTxs bc tx = Except.error ("unknown transaction type: " ++ toString tx.txType)) := by
  refine ⟨?_, ?_, ?_, ?_, ?_, ?_, ?_⟩
  case refine_7 =>
    intro h1 h2 h3 h4 h5 h6
    simp [WriteRFQTxs, RFQRequestTxType, OpenRFQTxType, ClosedRFQTxType,
      MatchedRFQTxType, SettledRFQTxType, QuoteTxType] at h1 h2 h3 h4 h5 h6 ⊢
    simp [h1, h2, h3, h4, h5, h6]
  all_goals
    intro h
    simp [WriteRFQTxs, h, RFQRequestTxType, OpenRFQTxType, ClosedRFQTxType,
      MatchedRFQTxType, SettledRFQTxType, QuoteTxType]

/-- C3 witness: the request route, one reference route, and the unknown
tag at concrete transactions. -/
theorem C3_writeRFQTxs_witness :
    WriteRFQTxs emptyBlockchain tx0 = Except.ok { emptyBlockchain with rfqRequestsTable :=
      (kvPut emptyBlockchain.rfqRequestsTable tx0.hash
        (DBVal.encRFQ { From := tx0.fromAddr, Data := tx0.rfqData, V := tx0.v, R := tx0.r, S := tx0.s })) }
  ∧ WriteRFQTxs emptyBlockchain txOpen = Except.ok { emptyBlockchain with openRFQSTable :=
      (kvPut emptyBlockchain.openRFQSTable txOpen.referenceTxHash (DBVal.rawTx txOpen.dataBytes)) }
  ∧ WriteRFQTxs emptyBlockchain txUnknown =
      Except.error ("unknown transaction type: " ++ toString txUnknown.txType) :=
  ⟨(C3_writeRFQTxs_routing emptyBlockchain tx0).1 rfl,
   (C3_writeRFQTxs_routing emptyBlockchain txOpen).2.1 rfl,
   (C3_writeRFQTxs_routing emptyBlockchain txUnknown).2.2.2.2.2.2
     (by decide) (by decide) (by decide) (by decide) (by decide) (by decide)⟩

/-- C4: writing a signed `RequestTx` into an empty request table and then
reading via `GetRFQRequests` yields exactly one `RFQRequest` whose fields
(sender, signable data — hence requestor id and amount — and V, R, S)
equal the written transaction's; and any decode failure or iteration error
makes `GetRFQRequests` abort with an error instead of partial results. -/
theorem C4_rfq_roundtrip_and_abort (bc : Blockchain) (tx : Transaction) :
    (tx.txType = RFQRequestTxType → bc.rfqRequestsTable = [] →
      ∀ bc2, WriteRFQTxs bc tx = Except.ok bc2 →
        GetRFQRequests bc2 =
          Except.ok [{ From := tx.fromAddr, Data := tx.rfqData, V := tx.v, R := tx.r, S := tx.s }])
  ∧ (∀ (pre : List (Hash × DBVal)) (k : Hash) (d : Nat) (rest : List (Hash × DBVal))
        (iterErr : Option String) (rs : List RFQRequest),
      GetRFQRequestsIter (pre ++ (k, DBVal.rawTx d) :: rest) iterErr ≠ Except.ok rs)
  ∧ (∀ (entries : List (Hash × DBVal)) (e : String) (rs : List RFQRequest),
      GetRFQRequestsIter entries (some e) ≠ Except.ok rs) := by
  refine ⟨?_, ?_, ?_⟩
  · intro htype hempty bc2 hw
    simp only [WriteRFQTxs, htype, if_pos, Except.ok.injEq] at hw
    subst hw
    simp [GetRFQRequests, GetRFQRequestsIter, decodeRFQRecords, decodeRFQRequest,
      kvPut, hempty]
  · intro pre k d rest iterErr rs
    obtain ⟨e, he⟩ := decodeRFQRecords_rawTx_error pre k d rest
    simp [GetRFQRequestsIter, he]
  · intro entries e rs
    cases hd : decodeRFQRecords entries with
    | error e' => simp [GetRFQRequestsIter, hd]
    | ok rs' => simp [GetRFQRequestsIter, hd]

/-- C4 witness: the round trip at the concrete request `tx0`, plus one
concrete decode failure and one concrete iteration error. -/
theorem C4_rfq_roundtrip_witness :
    GetRFQRequests wroteBC = Except.ok [{ From := 7, Data := sd0, V := 1, R := 2, S := 3 }]
  ∧ GetRFQRequestsIter [(5, DBVal.rawTx 3)] none ≠ Except.ok []
  ∧ GetRFQRequestsIter [] (some "io") ≠ Except.ok [] :=
  ⟨(C4_rfq_roundtrip_and_abort emptyBlockchain tx0).1 rfl rfl wroteBC rfl,
   (C4_rfq_roundtrip_and_abort emptyBlockchain tx0).2.1 [] 5 3 [] none [],
   (C4_rfq_roundtrip_and_abort emptyBlockchain tx0).2.2 [] "io" []⟩

/-- C5 counterexample: the claim says the responder builds one pair per
height of the inclusive range `[to, from]` and always replies — with an
empty batch rather than an error when the range is not covered. On a
chain with one header (height 0), the request `{From: 1, To: 1}` passes
the `from <= len && to <= len` admission check, so the handler walks
height 1, where `GetBlock` fails (1 exceeds the current height 0), and
the handler returns that error without sending any reply — neither a
batch nor an empty one. -/
theorem C5_getBlocks_counterexample :
    processGetBlocksMessage oneHeaderChain 1 1 =
      GoResult.err "blockchain height is less than requested height" := rfl

/-- C5 (amended): when `from` or `to` exceeds the responder's header
count, it replies once with an empty batch; when both are within the
header count and every `GetBlock` in the inclusive range `[to, from]`
succeeds, it replies once with one `{header, block}` pair per height; but
when the admitted range reaches height = header count (which always
exceeds the current height), `GetBlock` fails there and the handler
returns the error without replying. -/
theorem C5_getBlocks_amended (bc : Blockchain) (dataFrom dataTo : Nat) :
    (¬(dataFrom ≤ bc.headers.length ∧ dataTo ≤ bc.headers.length) →
      processGetBlocksMessage bc dataFrom dataTo = GoResult.ok [])
  ∧ (∀ f : Nat → Block,
      dataFrom ≤ bc.headers.length → dataTo ≤ bc.headers.length →
      (∀ j, dataTo ≤ j → j < dataTo + (dataFrom + 1 - dataTo) →
        GetBlock bc (Int.ofNat j) = GoResult.ok (f j)) →
      processGetBlocksMessage bc dataFrom dataTo =
        GoResult.ok (expectedBatch f dataTo (dataFrom + 1 - dataTo))
      ∧ (expectedBatch f dataTo (dataFrom + 1 - dataTo)).length = dataFrom + 1 - dataTo)
  ∧ (dataFrom = bc.headers.length → dataTo ≤ dataFrom →
      ∀ pairs, processGetBlocksMessage bc dataFrom dataTo ≠ GoResult.ok pairs) := by
  refine ⟨?_, ?_, ?_⟩
  · intro h
    simp [processGetBlocksMessage, h]
  · intro f hF hT hall
    refine ⟨?_, expectedBatch_length f _ _⟩
    unfold processGetBlocksMessage
    rw [if_pos ⟨hF, hT⟩]
    exact collectRange_ok bc f (dataFrom + 1 - dataTo) dataTo hall
  · intro hF hT pairs
    subst hF
    have hgb : (GetBlock bc (Int.ofNat bc.headers.length)).isOk = false := by
      have herr : GetBlock bc ((bc.headers.length : ℕ) : ℤ) =
          GoResult.err "blockchain height is less than requested height" := by
        unfold GetBlock
        rw [if_pos]
        unfold Height
        omega
      rw [show Int.ofNat bc.headers.length = ((bc.headers.length : ℕ) : ℤ) from rfl, herr]
      rfl
    have hno := collectRange_not_ok bc (bc.headers.length + 1 - dataTo) dataTo
      bc.headers.length hT (by omega) hgb pairs
    unfold processGetBlocksMessage
    rw [if_pos ⟨Nat.le_refl _, hT⟩]
    exact hno

/-- C5 witness for the amended claim: an uncovered range answered with an
empty batch, a covered range answered with its one-pair batch, and the
boundary range answered with an error. -/
theorem C5_getBlocks_amended_witness :
    processGetBlocksMessage oneHeaderChain 2 0 = GoResult.ok []
  ∧ processGetBlocksMessage commitBC 0 0 = GoResult.ok (expectedBatch (fun _ => blk0) 0 1)
  ∧ (expectedBatch (fun _ => blk0) 0 1).length = 0 + 1 - 0
  ∧ processGetBlocksMessage commitBC 1 0 ≠ GoResult.ok []
  ∧ processGetBlocksMessage oneHeaderChain 1 1 ≠ GoResult.ok [] := by
  have hcov := (C5_getBlocks_amended commitBC 0 0).2.1 (fun _ => blk0)
    (by decide) (by decide)
    (by
      intro j hj1 hj2
      have hj : j = 0 := by omega
      subst hj
      rfl)
  exact ⟨(C5_getBlocks_amended oneHeaderChain 2 0).1 (by decide),
    hcov.1, hcov.2,
    (C5_getBlocks_amended commitBC 1 0).2.2 rfl (by decide) [],
    (C5_getBlocks_amended oneHeaderChain 1 1).2.2 rfl (by decide) []⟩

/-- C6: transaction processing deduplicates against the mempool — a
transaction whose hash is already present is accepted without re-adding
or re-broadcasting; a new one is added (leaving exactly one copy per
hash) and broadcast; re-processing the now-seen transaction never
re-floods it. -/
theorem C6_processTransaction_dedup (pool : TxPool) (tx : Transaction) :
    (pool.Contains tx.hash = true → processTransaction pool tx = (pool, false, none))
  ∧ (pool.Contains tx.hash = false →
      processTransaction pool tx = (pool.Add tx, true, none)
      ∧ ((pool.Add tx).txs.filter (fun t => t.hash = tx.hash)).length = 1
      ∧ processTransaction (pool.Add tx) tx = (pool.Add tx, false, none)) := by
  constructor
  · intro h
    simp [processTransaction, h]
  · intro h
    have hadd : pool.Add tx = { txs := pool.txs ++ [tx] } := by
      simp [TxPool.Add, h]
    have hnil : pool.txs.filter (fun t => t.hash = tx.hash) = [] :=
      filter_hash_eq_nil pool.txs tx.hash h
    have hcontains : (pool.Add tx).Contains tx.hash = true := by
      simp [hadd, TxPool.Contains, List.any_append]
    refine ⟨by simp [processTransaction, h], ?_, by simp [processTransaction, hcontains]⟩
    simp [hadd, List.filter_append, hnil]

/-- C6 witness: a fresh transaction is added and broadcast once, leaves
one copy in the pool, and is not re-broadcast when seen again. -/
theorem C6_processTransaction_witness :
    processTransaction emptyPool tx0 = (TxPool.Add emptyPool tx0, true, none)
  ∧ ((TxPool.Add emptyPool tx0).txs.filter (fun t => t.hash = tx0.hash)).length = 1
  ∧ processTransaction (TxPool.Add emptyPool tx0) tx0 = (TxPool.Add emptyPool tx0, false, none) :=
  (C6_processTransaction_dedup emptyPool tx0).2 rfl

/-- C7: a Status message starts the background catch-up loop exactly when
the receiver is not a validator and its header count is strictly below
the advertised length; and the catch-up loop sends one GetBlocks request
per tick while the observed header count is below the target, terminating
at the first observation at or above it. -/
theorem C7_status_catchup :
    (∀ (isValidator : Bool) (myLen adv : Int),
      processStatusMessage isValidator myLen adv = true ↔ (isValidator = false ∧ myLen < adv))
  ∧ (∀ (target : Int) (trace : List Int),
      requestBlocksRun target trace =
        (trace.takeWhile (fun l => l < target)).map (fun l => (target, l))) := by
  constructor
  · intro v m c
    unfold processStatusMessage
    split_ifs with h1 h2
    · simp only [Bool.false_eq_true, false_iff]
      rintro ⟨_, hmc⟩
      omega
    · simp [h2]
    · simp only [Bool.false_eq_true, false_iff]
      exact h2
  · intro target trace
    induction trace with
    | nil => rfl
    | cons len rest ih =>
        by_cases h : len ≥ target
        · have hlt : ¬(len < target) := by omega
          simp [requestBlocksRun, List.takeWhile, h, hlt]
        · have hlt : len < target := by omega
          simp [requestBlocksRun, List.takeWhile, h, hlt, ih]

/-- C8: in the validator's block-production step, the mempool is cleared
only after the block built from the `Pending()` snapshot has been
committed by `VerifyBlock`: an error from the current-header lookup,
block construction, signing, or `VerifyBlock` is returned with the chain
and the mempool's pending set unchanged; on success the pool is cleared
and the block is broadcast. -/
theorem C8_createNewBlock_clears_only_on_commit (chain : Blockchain) (pool : TxPool)
    (nb : Header → List Transaction → Except String Block)
    (sg : Block → Except String Block) :
    (∀ e, GetHeader chain (Height chain) = Except.error e →
      CreateNewBlock chain pool nb sg = (chain, pool, false, some e))
  ∧ (∀ hdr e, GetHeader chain (Height chain) = Except.ok hdr →
      nb hdr pool.Pending = Except.error e →
      CreateNewBlock chain pool nb sg = (chain, pool, false, some e))
  ∧ (∀ hdr blk e, GetHeader chain (Height chain) = Except.ok hdr →
      nb hdr pool.Pending = Except.ok blk → sg blk = Except.error e →
      CreateNewBlock chain pool nb sg = (chain, pool, false, some e))
  ∧ (∀ hdr blk sblk chain2 e, GetHeader chain (Height chain) = Except.ok hdr →
      nb hdr pool.Pending = Except.ok blk → sg blk = Except.ok sblk →
      VerifyBlock chain (some sblk) = (chain2, some e) →
      CreateNewBlock chain pool nb sg = (chain, pool, false, some e))
  ∧ (∀ hdr blk sblk chain2, GetHeader chain (Height chain) = Except.ok hdr →
      nb hdr pool.Pending = Except.ok blk → sg blk = Except.ok sblk →
      VerifyBlock chain (some sblk) = (chain2, none) →
      CreateNewBlock chain pool nb sg = (chain2, TxPool.ClearPending pool, true, none)
      ∧ (TxPool.ClearPending pool).Pending = []) := by
  refine ⟨?_, ?_, ?_, ?_, ?_⟩
  · intro e h1
    simp [CreateNewBlock, h1]
  · intro hdr e h1 h2
    simp [CreateNewBlock, h1, h2]
  · intro hdr blk e h1 h2 h3
    simp [CreateNewBlock, h1, h2, h3]
  · intro hdr blk sblk chain2 e h1 h2 h3 h4
    have hunch : chain2 = chain := by
      have hsome : (VerifyBlock chain (some sblk)).2.isSome = true := by
        rw [h4]
        rfl
      have := verifyBlock_error_unchanged chain (some sblk) hsome
      rw [h4] at this
      exact this
    subst hunch
    simp [CreateNewBlock, h1, h2, h3, h4]
  · intro hdr blk sblk chain2 h1 h2 h3 h4
    exact ⟨by simp [CreateNewBlock, h1, h2, h3, h4], rfl⟩

/-- C8 witness: a concrete successful production step — a one-block chain,
an empty mempool, a constructor yielding `blk1` and an identity signer —
clears the pool and broadcasts. -/
theorem C8_createNewBlock_witness :
    CreateNewBlock commitBC emptyPool (fun _ _ => Except.ok blk1) Except.ok =
      (addBlockWithoutValidation commitBC blk1, TxPool.ClearPending emptyPool, true, none)
    ∧ (TxPool.ClearPending emptyPool).Pending = [] :=
  (C8_createNewBlock_clears_only_on_commit commitBC emptyPool
      (fun _ _ => Except.ok blk1) Except.ok).2.2.2.2
    h0 blk1 blk1 (addBlockWithoutValidation commitBC blk1) rfl rfl rfl rfl

/-- C9: after `NewBlockchain` returns for a validator node, the current
head snapshot `CurrentBlock()` is nil although genesis is committed (one
header, height 0, block persisted) — the constructor stores nil into the
head pointer after committing genesis — and the head first becomes
non-nil on the next successful `VerifyBlock`. -/
theorem C9_newBlockchain_head_is_nil (genesis : Block) (h : Header)
    (vf : Block → Except String Unit)
    (hgen : genesis.header = some h) (hh0 : h.height = 0) :
    ∀ bc, NewBlockchain genesis true vf = GoResult.ok bc →
      CurrentBlock bc = none
      ∧ Height bc = 0
      ∧ bc.headers = [h]
      ∧ readBlock bc.db h.hhash 0 = some genesis
      ∧ (∀ blk h2, blk.header = some h2 → (VerifyBlock bc (some blk)).2 = none →
          CurrentBlock (VerifyBlock bc (some blk)).1 = some h2) := by
  intro bc hbc
  have hread : readBlock (writeBlock [] genesis) h.hhash 0 = some genesis := by
    have h' := readBlock_writeBlock [] genesis h hgen
    rw [hh0] at h'
    simpa using h'
  have hget :
      GetBlock (addBlockWithoutValidation { emptyBlockchain with validator := some vf } genesis) 0
        = GoResult.ok genesis := by
    simp [GetBlock, GetBlockHeader, Height, addBlockWithoutValidation, hgen, emptyBlockchain,
      hread]
  unfold NewBlockchain at hbc
  rw [if_pos rfl, hget] at hbc
  have hbc' :
      { addBlockWithoutValidation { emptyBlockchain with validator := some vf } genesis with
        genesisBlock := some genesis, currentBlock := none } = bc :=
    GoResult.ok.inj hbc
  subst hbc'
  refine ⟨rfl, ?_, ?_, ?_, ?_⟩
  · simp [Height, addBlockWithoutValidation, hgen, emptyBlockchain]
  · simp [addBlockWithoutValidation, hgen, emptyBlockchain]
  · simpa [addBlockWithoutValidation, hgen, emptyBlockchain] using hread
  · intro blk h2 hh2 hok
    rw [verifyBlock_ok_shape _ blk h2 hh2 hok]
    simp [CurrentBlock, addBlockWithoutValidation, hh2]

/-- C9 witness: the concrete validator chain seeded with `blk0`. -/
theorem C9_newBlockchain_witness :
    NewBlockchain blk0 true vfOk = GoResult.ok genBC
    ∧ CurrentBlock genBC = none
    ∧ Height genBC = 0
    ∧ genBC.headers = [h0]
    ∧ readBlock genBC.db h0.hhash 0 = some blk0 := by
  have T := C9_newBlockchain_head_is_nil blk0 h0 vfOk rfl rfl genBC rfl
  exact ⟨rfl, T.1, T.2.1, T.2.2.1, T.2.2.2.1⟩

/-- C10: transaction admission performs no signature verification — a
not-yet-seen transaction with an invalid signature is still added to the
mempool, broadcast, and accepted; the signature is only checked inside
`VerifyBlock`, which rejects any block containing it. -/
theorem C10_admission_without_verification (pool : TxPool) (tx : Transaction)
    (hbad : tx.sigValid = false) :
    (pool.Contains tx.hash = false →
      processTransaction pool tx = (pool.Add tx, true, none))
  ∧ (∀ bc blk, tx ∈ blk.transactions → (VerifyBlock bc (some blk)).2.isSome = true) := by
  constructor
  · intro h
    simp [processTransaction, h]
  · intro bc blk hmem
    exact verifyBlock_badTx_error bc blk tx hmem hbad

/-- C10 witness: the unsigned-in-effect transaction `txBad` is admitted
and broadcast, yet a block carrying it is rejected by `VerifyBlock`. -/
theorem C10_admission_witness :
    processTransaction emptyPool txBad = (TxPool.Add emptyPool txBad, true, none)
    ∧ (VerifyBlock emptyBlockchain (some blkBad)).2.isSome = true :=
  ⟨(C10_admission_without_verification emptyPool txBad rfl).1 rfl,
   (C10_admission_without_verification emptyPool txBad rfl).2 emptyBlockchain blkBad
     (by decide)⟩
